import Mathlib

/-!
# Verification of the pydocs document-management core

Shallow embedding of the document store, upload, versioning, metadata
extraction and tag-parsing logic of the `pydocs` repository
(`src/pydocs/schema/file.py`, `src/pydocs/workflows.py`,
`src/pydocs/models/document.py`, `src/pydocs/config.py`), together with
proofs about the embedded operations.

Conventions of the embedding:
* Python byte strings are `List Nat` (one entry per byte), decoded text is
  `List Nat` (one entry per Unicode code point).
* Database rows are Lean structures; a table is a `List` of rows.
* A fallible endpoint returns an inductive result type or an `Option`.
* External services (the SHA-256 compression function, the PDF parsing
  library) enter as parameters: the digest is an arbitrary function of the
  absorbed bytes, the PDF parser is an `Option`-valued parse result.
-/

namespace PyDocs

/-! ## Data model (`models/document.py`) -/

/-- `DocumentType` enumeration (`models/document.py`). -/
inductive DocumentType where
  | text
  | pdf
  | markdown
  | html
deriving DecidableEq, Repr

/-- `DocumentStatus` enumeration (`models/document.py`). -/
inductive DocumentStatus where
  | draft
  | published
  | archived
deriving DecidableEq, Repr

/-- The `Document` row (`models/document.py`), restricted to the columns the
claims are about.  Ids and timestamps are `Nat` (opaque identities). -/
structure Document where
  id : Nat
  owner_id : Nat
  document_type : DocumentType
  status : DocumentStatus
  file_path : String
  file_name : String
  file_size : Nat
  mime_type : String
  checksum : Option String
  is_public : Bool
  created_at : Nat
deriving DecidableEq, Repr

/-- The `DocumentVersion` row (`models/document.py`). -/
structure DocumentVersion where
  document_id : Nat
  version_number : Nat
  file_path : String
  file_size : Nat
  checksum : String
  change_summary : Option String
  created_by_id : Nat
deriving DecidableEq, Repr

/-! ## Python string primitives

Structural implementations of the `str` methods the source uses
(`str.strip`, `str.lower`, `str.split(",")`), so that every definition
evaluates by kernel reduction. -/

/-- The whitespace characters removed by `str.strip()` (ASCII range). -/
def isStripSpace (c : Char) : Bool :=
  c = ' ' ∨ c = '\t' ∨ c = '\n' ∨ c = '\x0d' ∨ c = '\x0b' ∨ c = '\x0c'

/-- `str.strip()`: drop leading and trailing whitespace. -/
def pyStrip (s : String) : String :=
  String.mk (((s.toList.dropWhile isStripSpace).reverse.dropWhile isStripSpace).reverse)

/-- ASCII case folding of one character (`str.lower` restricted to ASCII,
which covers every string the source compares against). -/
def lowerChar (c : Char) : Char :=
  if 'A' ≤ c ∧ c ≤ 'Z' then Char.ofNat (c.toNat + 32) else c

/-- `str.lower()`. -/
def pyLower (s : String) : String :=
  String.mk (s.toList.map lowerChar)

/-- Character-level worker for `str.split(",")`. -/
def splitCommaChars : List Char → List (List Char)
  | [] => [[]]
  | c :: cs =>
    if c = ',' then [] :: splitCommaChars cs
    else
      match splitCommaChars cs with
      | [] => [[c]]
      | g :: gs => (c :: g) :: gs

/-- `str.split(",")`: like Python, `"".split(",") = [""]`. -/
def pySplitComma (s : String) : List String :=
  (splitCommaChars s.toList).map String.mk

/-! ## Tag parsing (`workflows.py`, `_parse_tags_from_response`) -/

/-- De-duplication loop of `_parse_tags_from_response`: keeps the first
occurrence of each tag, tracking the `seen` set as a list. -/
def dedupTags (seen : List String) : List String → List String
  | [] => []
  | t :: ts => if t ∈ seen then dedupTags seen ts else t :: dedupTags (t :: seen) ts

/-- `DocumentTaggingWorkflow._parse_tags_from_response` (`workflows.py`):
strip the response, split on commas, drop tokens that are blank after
stripping, strip and lower-case the rest, de-duplicate keeping first
occurrences, and keep at most 7 tags. -/
def parse_tags_from_response (response : String) : List String :=
  let tags := pySplitComma (pyStrip response)
  let cleaned := (tags.filter (fun t => pyStrip t ≠ "")).map (fun t => pyLower (pyStrip t))
  (dedupTags [] cleaned).take 7

/-! ## Document-type classification (`schema/file.py`, helper functions) -/

/-- Index of the last occurrence of `c` in `l`, scanning from the front
(`str.rfind`); `none` when absent. -/
def lastIndexOf (c : Char) (l : List Char) : Option Nat :=
  match l with
  | [] => none
  | x :: xs =>
    match lastIndexOf c xs with
    | some i => some (i + 1)
    | none => if x = c then some 0 else none

/-- Character-level split on an arbitrary separator (used for the path
components of a filename). -/
def splitOnChar (sep : Char) : List Char → List (List Char)
  | [] => [[]]
  | c :: cs =>
    if c = sep then [] :: splitOnChar sep cs
    else
      match splitOnChar sep cs with
      | [] => [[c]]
      | g :: gs => (c :: g) :: gs

/-- `pathlib.PurePath(...).suffix`: the extension of the final path
component, empty unless the last dot is neither the first nor the last
character of that component. -/
def pathSuffix (filename : String) : String :=
  let name := (splitOnChar '/' filename.toList).getLastD []
  match lastIndexOf '.' name with
  | none => ""
  | some i => if 0 < i ∧ i + 1 < name.length then String.mk (name.drop i) else ""

/-- `get_document_type_from_mime` (`schema/file.py`): a chain of checks in
the fixed order pdf, markdown, html, each matching either the MIME type or
the lower-cased filename extension; everything else is plain text. -/
def get_document_type_from_mime (mime_type : String) (filename : String) : DocumentType :=
  let extension := pyLower (pathSuffix filename)
  if mime_type = "application/pdf" ∨ extension = ".pdf" then .pdf
  else if mime_type = "text/markdown" ∨ extension = ".md" then .markdown
  else if mime_type = "text/html" ∨ (extension = ".html" ∨ extension = ".htm") then .html
  else .text

/-- `BaseConfig.ALLOWED_EXTENSIONS` (`config.py`). -/
def ALLOWED_EXTENSIONS : List String := [".txt", ".pdf", ".md", ".html", ".htm"]

/-- `validate_file` (`schema/file.py`): filename present and extension in
the allow-list (the MIME check in the source is a no-op).  `true` means
the upload passes validation. -/
def validate_file (filename : String) : Bool :=
  filename ≠ "" ∧ pyLower (pathSuffix filename) ∈ ALLOWED_EXTENSIONS

/-! ## Saving an upload (`schema/file.py`, `save_upload_file`)

The uploaded stream is the list of chunks returned by successive
`read(8192)` calls; an empty chunk ends the loop.  The SHA-256 object is
modelled by the byte sequence it has absorbed, with the `digest`
parameter standing for the (injective, externally defined) SHA-256 hex
digest of that sequence. -/

/-- Outcome of `save_upload_file`: either the written file with its size
and checksum, or the 413 entity-too-large abort (which has already
unlinked the partial file). -/
inductive SaveResult where
  | ok (written : List Nat) (size : Nat) (checksum : String)
  | tooLarge
deriving DecidableEq, Repr

/-- The file left on disk after `save_upload_file`: the written bytes on
success, nothing after the oversize abort (`os.unlink`). -/
def diskAfter : SaveResult → Option (List Nat)
  | .ok written _ _ => some written
  | .tooLarge => none

/-- The chunk loop of `save_upload_file`: per chunk, add its length to the
running size, abort (leaving no file) when the size passes the limit,
otherwise absorb the chunk into the hash and append it to the file. -/
def saveLoop (digest : List Nat → String) (maxSize : Nat) :
    List (List Nat) → List Nat → List Nat → Nat → SaveResult
  | [], hashed, written, size => .ok written size (digest hashed)
  | chunk :: rest, hashed, written, size =>
    if chunk = [] then .ok written size (digest hashed)
    else
      let size2 := size + chunk.length
      if maxSize < size2 then .tooLarge
      else saveLoop digest maxSize rest (hashed ++ chunk) (written ++ chunk) size2

/-- `save_upload_file` (`schema/file.py`): stream the chunks to disk while
hashing and counting, enforcing `settings.MAX_UPLOAD_SIZE`. -/
def save_upload_file (digest : List Nat → String) (maxSize : Nat)
    (chunks : List (List Nat)) : SaveResult :=
  saveLoop digest maxSize chunks [] [] 0

/-! ## Text metadata extraction (`schema/file.py`, `extract_text_metadata`)

Bytes are decoded strictly as UTF-8; on a decode error the source falls
back to latin-1 (under which every byte is its own code point, so the
fallback never fails and the inner `"binary"` branch is unreachable).
Reading in text mode also applies universal-newline translation. -/

/-- Strict UTF-8 decoding of a byte list into code points, rejecting
overlong forms, surrogates and out-of-range values exactly as Python's
`utf-8` codec does.  `none` models `UnicodeDecodeError`. -/
def utf8Decode : List Nat → Option (List Nat)
  | [] => some []
  | b :: bs =>
    if b < 128 then (utf8Decode bs).map (fun r => b :: r)
    else if b < 194 then none
    else if b < 224 then
      match bs with
      | [] => none
      | b1 :: bs2 =>
        if 128 ≤ b1 ∧ b1 < 192 then
          (utf8Decode bs2).map (fun r => ((b - 192) * 64 + (b1 - 128)) :: r)
        else none
    else if b < 240 then
      match bs with
      | b1 :: b2 :: bs3 =>
        if (128 ≤ b1 ∧ b1 < 192) ∧ (128 ≤ b2 ∧ b2 < 192) then
          let cp := (b - 224) * 4096 + (b1 - 128) * 64 + (b2 - 128)
          if 2048 ≤ cp ∧ (cp < 55296 ∨ 57343 < cp) then
            (utf8Decode bs3).map (fun r => cp :: r)
          else none
        else none
      | _ => none
    else if b < 245 then
      match bs with
      | b1 :: b2 :: b3 :: bs4 =>
        if (128 ≤ b1 ∧ b1 < 192) ∧ ((128 ≤ b2 ∧ b2 < 192) ∧ (128 ≤ b3 ∧ b3 < 192)) then
          let cp := (b - 240) * 262144 + (b1 - 128) * 4096 + (b2 - 128) * 64 + (b3 - 128)
          if 65536 ≤ cp ∧ cp ≤ 1114111 then
            (utf8Decode bs4).map (fun r => cp :: r)
          else none
        else none
      | _ => none
    else none

/-- Universal-newline translation done by text-mode reads: `\r\n` and
lone `\r` both become `\n`. -/
def universalNewlines : List Nat → List Nat
  | [] => []
  | 13 :: 10 :: rest => 10 :: universalNewlines rest
  | 13 :: rest => 10 :: universalNewlines rest
  | c :: rest => c :: universalNewlines rest

/-- Code points treated as whitespace by `str.split()` with no argument. -/
def isPySpace (c : Nat) : Bool :=
  c ∈ [9, 10, 11, 12, 13, 28, 29, 30, 31, 32, 133, 160, 5760, 8192, 8193, 8194,
       8195, 8196, 8197, 8198, 8199, 8200, 8201, 8202, 8232, 8233, 8239, 8287, 12288]

/-- Number of maximal non-whitespace runs, i.e. `len(content.split())`. -/
def wordCountAux (inWord : Bool) : List Nat → Nat
  | [] => 0
  | c :: cs =>
    if isPySpace c then wordCountAux false cs
    else (if inWord then 0 else 1) + wordCountAux true cs

/-- Result dictionary of `extract_text_metadata`; fields that a branch
leaves out of the Python dict are `none`. -/
structure TextMeta where
  line_count : Option Nat
  word_count : Option Nat
  character_count : Option Nat
  content_preview : Option (List Nat)
  encoding : String
deriving DecidableEq, Repr

/-- The dictionary built from decoded content (the identical block appears
in both the utf-8 and the latin-1 branch of the source):
`len(content.split("\n"))`, `len(content.split())`, `len(content)`, and a
2000-character preview that is `None` for empty content. -/
def textMetaOf (content : List Nat) (enc : String) : TextMeta :=
  { line_count := some (content.count 10 + 1)
    word_count := some (wordCountAux false content)
    character_count := some content.length
    content_preview := if content = [] then none else some (content.take 2000)
    encoding := enc }

/-- `extract_text_metadata` (`schema/file.py`): try utf-8, fall back to
latin-1 (byte = code point) on a decode error.  The latin-1 decode is
total, so the source's `{"encoding": "binary"}` branch is unreachable
and the function never fails on any byte content. -/
def extract_text_metadata (bs : List Nat) : TextMeta :=
  match utf8Decode bs with
  | some cps => textMetaOf (universalNewlines cps) "utf-8"
  | none => textMetaOf (universalNewlines bs) "latin-1"

/-! ## PDF metadata extraction (`schema/file.py`, `extract_pdf_metadata`)

The `pypdf` library is external; its successful parse is modelled by a
`PdfParsed` value and every internal failure (import failure or any
exception while reading) by `none`. -/

/-- What a successful `PdfReader` gives the extractor.  Each page carries
the result of `page.extract_text()`, with `none` when that call raised. -/
structure PdfParsed where
  pages : List (Option String)
  is_encrypted : Bool
  pdf_header : Option String
deriving DecidableEq, Repr

/-- Result dictionary of `extract_pdf_metadata`, restricted to the keys
the claims are about; absent keys are `none`. -/
structure PdfMeta where
  page_count : Option Nat
  is_encrypted : Bool
  is_searchable : Bool
  pdf_version : Option String
  text_preview : Option String
deriving DecidableEq, Repr

/-- `extract_pdf_metadata` (`schema/file.py`): on any parse failure return
the degraded default (unknown page count, not encrypted, assumed
searchable); otherwise report page count, encryption, header-derived
version, per-page searchability (pages whose extraction raised are
skipped) and a 2000-character text preview. -/
def extract_pdf_metadata : Option PdfParsed → PdfMeta
  | none =>
    { page_count := none, is_encrypted := false, is_searchable := true,
      pdf_version := none, text_preview := none }
  | some parsed =>
    let texts := (parsed.pages.filterMap id).filter (fun t => pyStrip t ≠ "")
    let full_text := String.intercalate "\n" texts
    { page_count := some parsed.pages.length
      is_encrypted := parsed.is_encrypted
      pdf_version := parsed.pdf_header.map (fun h => h.replace "%PDF-" "")
      is_searchable := texts ≠ []
      text_preview := if full_text ≠ "" then some (String.mk (full_text.toList.take 2000)) else none }

/-! ## Document retrieval (`schema/file.py`, `get_document`) -/

/-- Outcome of the detail-retrieval endpoint. -/
inductive GetDocResult where
  | notFound
  | forbidden
  | ok (doc : Document)
deriving DecidableEq, Repr

/-- `get_document` (`schema/file.py`): look the row up by id (404 when
absent), then reject non-owners of non-public documents with 403. -/
def get_document (docs : List Document) (document_id : Nat) (userId : Nat) : GetDocResult :=
  match docs.find? (fun d => d.id = document_id) with
  | none => .notFound
  | some doc =>
    if doc.owner_id ≠ userId ∧ doc.is_public = false then .forbidden
    else .ok doc

/-! ## Document listing (`schema/file.py`, `list_documents`) -/

/-- Response of the list endpoint. -/
structure ListResult where
  documents : List Document
  total : Nat
  page : Nat
  page_size : Nat
deriving DecidableEq, Repr

/-- Insert into a list kept sorted by `created_at` descending. -/
def insertByCreatedDesc (d : Document) : List Document → List Document
  | [] => [d]
  | e :: es =>
    if e.created_at ≤ d.created_at then d :: e :: es
    else e :: insertByCreatedDesc d es

/-- `ORDER BY created_at DESC` as an insertion sort. -/
def sortByCreatedDesc : List Document → List Document
  | [] => []
  | d :: ds => insertByCreatedDesc d (sortByCreatedDesc ds)

/-- The filtered query of `list_documents`: owner restriction plus the
optional status and type filters. -/
def filteredDocs (docs : List Document) (userId : Nat)
    (status_filter : Option DocumentStatus) (type_filter : Option DocumentType) :
    List Document :=
  let q0 := docs.filter (fun d => d.owner_id = userId)
  let q1 := match status_filter with
    | some s => q0.filter (fun d => d.status = s)
    | none => q0
  match type_filter with
  | some t => q1.filter (fun d => d.document_type = t)
  | none => q1

/-- `list_documents` (`schema/file.py`): the documents come from the
owner+filters query ordered by creation time descending with
offset/limit pagination, while `total` is computed by a second query that
applies only the owner restriction — the status/type filters are not
applied to the count. -/
def list_documents (docs : List Document) (userId : Nat) (page page_size : Nat)
    (status_filter : Option DocumentStatus) (type_filter : Option DocumentType) :
    ListResult :=
  let query := filteredDocs docs userId status_filter type_filter
  let total := (docs.filter (fun d => d.owner_id = userId)).length
  let offset := (page - 1) * page_size
  { documents := ((sortByCreatedDesc query).drop offset).take page_size
    total := total
    page := page
    page_size := page_size }

/-! ## Version upload (`schema/file.py`, `upload_new_version`)

The endpoint is modelled on the success path of the saved file: the
`save_upload_file` result enters as the new file's path, size and
checksum (`NewFile`).  `none` models the 403/400 aborts; the 404 case is
the absence of the document row and is outside this function.  Subtype
metadata re-extraction touches no field the claims mention and is
omitted. -/

/-- The new file of a version upload, as produced by `save_upload_file`
plus the client-supplied filename and content type. -/
structure NewFile where
  file_path : String
  file_name : String
  file_size : Nat
  checksum : String
  content_type : Option String
deriving DecidableEq, Repr

/-- `max([v.version_number for v in versions], default=0)`. -/
def maxVersionNumber (versions : List DocumentVersion) : Nat :=
  versions.foldr (fun v acc => max v.version_number acc) 0

/-- `upload_new_version` (`schema/file.py`): owner check, file validation,
snapshot of the current file fields into a `DocumentVersion` numbered
`next_version - 1` (clamped to 1), then overwrite of the document's file
fields with the new file.  Returns the updated document and version
table on success. -/
def upload_new_version (doc : Document) (versions : List DocumentVersion)
    (userId : Nat) (nf : NewFile) (change_summary : Option String) :
    Option (Document × List DocumentVersion) :=
  if doc.owner_id ≠ userId then none
  else if validate_file nf.file_name = false then none
  else
    let next_version := maxVersionNumber versions + 1
    let version : DocumentVersion :=
      { document_id := doc.id
        version_number := if next_version > 1 then next_version - 1 else 1
        file_path := doc.file_path
        file_size := doc.file_size
        checksum := doc.checksum.getD ""
        change_summary := change_summary
        created_by_id := userId }
    let doc2 : Document :=
      { doc with
        file_path := nf.file_path
        file_name := if nf.file_name ≠ "" then nf.file_name else doc.file_name
        file_size := nf.file_size
        checksum := some nf.checksum
        mime_type := nf.content_type.getD doc.mime_type }
    some (doc2, versions ++ [version])

/-- A sequence of version uploads to the same document, threading the
document row and its version table; fails as soon as one upload fails. -/
def iterateUploads (doc : Document) (versions : List DocumentVersion)
    (userId : Nat) : List NewFile → Option (Document × List DocumentVersion)
  | [] => some (doc, versions)
  | nf :: nfs =>
    match upload_new_version doc versions userId nf none with
    | none => none
    | some (doc2, versions2) => iterateUploads doc2 versions2 userId nfs

/-! ## Spec-side classifiers (for comparison with
`get_document_type_from_mime`) -/

/-- The document type named by a MIME type alone. -/
def mimeTypeClass (m : String) : Option DocumentType :=
  if m = "application/pdf" then some .pdf
  else if m = "text/markdown" then some .markdown
  else if m = "text/html" then some .html
  else none

/-- The document type named by a lower-cased extension alone. -/
def extTypeClass (e : String) : Option DocumentType :=
  if e = ".pdf" then some .pdf
  else if e = ".md" then some .markdown
  else if e = ".html" ∨ e = ".htm" then some .html
  else none

/-- Modelled from the spec sentence behind claim C6 (the classification
rule as the spec words it): the MIME type decides, and the extension is
consulted only when the MIME type is absent or is the catch-all
octet-stream type; anything unknown is plain text. -/
def claimDocumentType (mime_type : String) (filename : String) : DocumentType :=
  let extension := pyLower (pathSuffix filename)
  if mime_type = "" ∨ mime_type = "application/octet-stream" then
    (extTypeClass extension).getD .text
  else
    (mimeTypeClass mime_type).getD .text

/-- The classification the code actually implements, stated
declaratively: whichever of the MIME-derived class and the
extension-derived class comes first in the fixed order pdf, markdown,
html; plain text when neither matches. -/
def rankMerge (a b : Option DocumentType) : DocumentType :=
  if a = some .pdf ∨ b = some .pdf then .pdf
  else if a = some .markdown ∨ b = some .markdown then .markdown
  else if a = some .html ∨ b = some .html then .html
  else .text

/-! ## Concrete rows used by witnesses and counterexamples -/

/-- A text document as the upload endpoint creates it (checksum present,
no version rows yet), owned by user 7. -/
def exDoc : Document :=
  { id := 11, owner_id := 7, document_type := .text, status := .draft,
    file_path := "uploads/7/2026/01/aaa.txt", file_name := "notes.txt",
    file_size := 23, mime_type := "text/plain", checksum := some "c0",
    is_public := false, created_at := 100 }

/-- First replacement file of a version-upload sequence. -/
def exFile1 : NewFile :=
  { file_path := "uploads/7/2026/02/bbb.txt", file_name := "notes.txt",
    file_size := 30, checksum := "c1", content_type := some "text/plain" }

/-- Second replacement file of a version-upload sequence. -/
def exFile2 : NewFile :=
  { file_path := "uploads/7/2026/02/ccc.txt", file_name := "notes.txt",
    file_size := 31, checksum := "c2", content_type := some "text/plain" }

/-- Third replacement file of a version-upload sequence. -/
def exFile3 : NewFile :=
  { file_path := "uploads/7/2026/02/ddd.txt", file_name := "notes.txt",
    file_size := 32, checksum := "c3", content_type := some "text/plain" }

/-- A non-public document owned by user 1. -/
def privateDoc : Document :=
  { id := 1, owner_id := 1, document_type := .text, status := .draft,
    file_path := "uploads/1/2026/01/p.txt", file_name := "p.txt",
    file_size := 3, mime_type := "text/plain", checksum := some "cp",
    is_public := false, created_at := 5 }

/-- A draft document owned by user 3. -/
def exDocA : Document :=
  { id := 21, owner_id := 3, document_type := .text, status := .draft,
    file_path := "uploads/3/2026/01/a.txt", file_name := "a.txt",
    file_size := 4, mime_type := "text/plain", checksum := some "ca",
    is_public := false, created_at := 10 }

/-- A published document owned by user 3. -/
def exDocB : Document :=
  { id := 22, owner_id := 3, document_type := .text, status := .published,
    file_path := "uploads/3/2026/01/b.txt", file_name := "b.txt",
    file_size := 5, mime_type := "text/plain", checksum := some "cb",
    is_public := false, created_at := 11 }

/-! ## Helper lemmas -/

example :
    parse_tags_from_response "technology, Python, Web Development, technology"
      = ["technology", "python", "web development"] := by decide

example : save_upload_file (fun _ => "h") 10 [[1, 2], [3]]
    = SaveResult.ok [1, 2, 3] 3 "h" := by decide

example : pathSuffix "a/b/Doc.PDF" = ".PDF" := by decide

example : pathSuffix ".bashrc" = "" := by decide

example : extract_text_metadata [72, 101, 108, 108, 111, 32, 119, 111, 114, 108,
    100, 10, 83, 101, 99, 111, 110, 100, 32, 108, 105, 110, 101]
    = { line_count := some 2, word_count := some 4, character_count := some 23,
        content_preview := some [72, 101, 108, 108, 111, 32, 119, 111, 114, 108,
          100, 10, 83, 101, 99, 111, 110, 100, 32, 108, 105, 110, 101],
        encoding := "utf-8" } := by decide


theorem dedupTags_sublist (l : List String) :
    ∀ seen, (dedupTags seen l).Sublist l := by
  induction l with
  | nil => intro seen; simp [dedupTags]
  | cons t ts ih =>
    intro seen
    by_cases h : t ∈ seen
    · simp only [dedupTags, if_pos h]
      exact (ih seen).trans (List.sublist_cons_self t ts)
    · simp only [dedupTags, if_neg h]
      exact (ih (t :: seen)).cons₂ t

theorem dedupTags_nodup_aux (l : List String) :
    ∀ seen, (dedupTags seen l).Nodup ∧ ∀ t ∈ dedupTags seen l, t ∉ seen := by
  induction l with
  | nil => intro seen; exact ⟨by simp [dedupTags], by simp [dedupTags]⟩
  | cons t ts ih =>
    intro seen
    by_cases h : t ∈ seen
    · simpa only [dedupTags, if_pos h] using ih seen
    · obtain ⟨hnd, hmem⟩ := ih (t :: seen)
      simp only [dedupTags, if_neg h]
      constructor
      · refine List.nodup_cons.mpr ⟨?_, hnd⟩
        intro hc
        exact (hmem t hc) (List.mem_cons_self t seen)
      · intro x hx
        rcases List.mem_cons.mp hx with rfl | hx2
        · exact h
        · intro hxs
          exact (hmem x hx2) (List.mem_cons_of_mem t hxs)

/-- Claim C4: tag parsing comma-splits, strips, lower-cases, drops blank
tokens, de-duplicates preserving first-seen order (the result is a
duplicate-free sublist of the cleaned token list), truncates to at most
7 tags, and on the example response yields exactly
`["technology", "python", "web development"]`. -/
theorem tag_parsing_correct :
    parse_tags_from_response "technology, Python, Web Development, technology"
      = ["technology", "python", "web development"]
    ∧ ∀ response : String,
        (parse_tags_from_response response).length ≤ 7
        ∧ (parse_tags_from_response response).Nodup
        ∧ (parse_tags_from_response response).Sublist
            (((pySplitComma (pyStrip response)).filter
                (fun t => pyStrip t ≠ "")).map (fun t => pyLower (pyStrip t))) := by
  refine ⟨by decide, fun response => ⟨?_, ?_, ?_⟩⟩
  · simp only [parse_tags_from_response, List.length_take]
    exact min_le_left _ _
  · exact List.Nodup.sublist (List.take_sublist _ _) (dedupTags_nodup_aux _ []).1
  · exact (List.take_sublist _ _).trans (dedupTags_sublist _ [])

/-- Claim C6, counterexample: for MIME type `text/markdown` and filename
`doc.pdf` the code returns `pdf` — the extension wins although a MIME
type is present and is not octet-stream, where the claimed rule
(`claimDocumentType`) requires `markdown`. -/
theorem document_type_mime_first_counterexample :
    get_document_type_from_mime "text/markdown" "doc.pdf" = DocumentType.pdf
    ∧ claimDocumentType "text/markdown" "doc.pdf" = DocumentType.markdown
    ∧ DocumentType.pdf ≠ DocumentType.markdown := by decide

/-- Claim C6, amended: the type is whichever of the MIME-derived class and
the extension-derived class comes first in the fixed order pdf, markdown,
html — so the extension is decisive whenever the MIME type is absent or
octet-stream, but it can also override a recognized MIME type whose class
comes later in that order; unknown combinations default to plain text. -/
theorem document_type_classification :
    ∀ mime_type filename : String,
      get_document_type_from_mime mime_type filename
        = rankMerge (mimeTypeClass mime_type)
            (extTypeClass (pyLower (pathSuffix filename))) := by
  intro mime_type filename
  unfold get_document_type_from_mime rankMerge mimeTypeClass extTypeClass
  split_ifs <;> simp_all

/-- Claim C5, counterexample: with only the non-public document of user 1
in the table, a request by user 42 for the nonexistent id 2 yields
not-found, not forbidden — so a non-owner request is not answered with
forbidden "regardless of whether the document exists". -/
theorem private_access_nonexistent_counterexample :
    get_document [privateDoc] 2 42 = GetDocResult.notFound
    ∧ GetDocResult.notFound ≠ GetDocResult.forbidden := by decide

/-- Claim C5, amended: a document with `is_public = false` is retrievable
only by its owner; a request from any other user id for an *existing*
non-public document receives forbidden, while a request for a
nonexistent document id receives not-found for every requester. -/
theorem private_document_access :
    ∀ (docs : List Document) (document_id userId : Nat),
      (docs.find? (fun d => d.id = document_id) = none →
        get_document docs document_id userId = GetDocResult.notFound)
      ∧ (∀ d, docs.find? (fun d2 => d2.id = document_id) = some d →
          d.owner_id ≠ userId → d.is_public = false →
          get_document docs document_id userId = GetDocResult.forbidden)
      ∧ (∀ d, get_document docs document_id userId = GetDocResult.ok d →
          d.owner_id = userId ∨ d.is_public = true) := by
  intro docs document_id userId
  refine ⟨?_, ?_, ?_⟩
  · intro h
    simp [get_document, h]
  · intro d hfind hown hpub
    simp [get_document, hfind, hown, hpub]
  · intro d hok
    unfold get_document at hok
    cases hfind : docs.find? (fun d2 => d2.id = document_id) with
    | none => rw [hfind] at hok; cases hok
    | some doc =>
      rw [hfind] at hok
      dsimp only at hok
      by_cases hc : doc.owner_id ≠ userId ∧ doc.is_public = false
      · rw [if_pos hc] at hok; cases hok
      · rw [if_neg hc] at hok
        cases hok
        rcases Decidable.not_and_iff_or_not.mp hc with h1 | h2
        · exact Or.inl (Decidable.not_not.mp h1)
        · exact Or.inr (Bool.not_eq_false _ ▸ h2)

/-- Witness for the amended claim C5: user 42 is refused the existing
non-public document of user 1 and gets not-found for a nonexistent id. -/
theorem private_document_access_witness :
    get_document [privateDoc] 1 42 = GetDocResult.forbidden
    ∧ get_document [privateDoc] 2 42 = GetDocResult.notFound :=
  ⟨(private_document_access [privateDoc] 1 42).2.1 privateDoc (by decide)
      (by decide) (by decide),
   (private_document_access [privateDoc] 2 42).1 (by decide)⟩

/-- Unfolding of a successful `upload_new_version`: the version table is
extended by exactly the snapshot row and the document's file fields are
replaced by the new file's. -/
theorem upload_new_version_some (doc : Document) (versions : List DocumentVersion)
    (userId : Nat) (nf : NewFile) (cs : Option String)
    (out : Document × List DocumentVersion)
    (h : upload_new_version doc versions userId nf cs = some out) :
    out.2 = versions ++
      [{ document_id := doc.id
         version_number :=
           if maxVersionNumber versions + 1 > 1 then maxVersionNumber versions + 1 - 1 else 1
         file_path := doc.file_path
         file_size := doc.file_size
         checksum := doc.checksum.getD ""
         change_summary := cs
         created_by_id := userId }]
    ∧ out.1.file_path = nf.file_path
    ∧ out.1.file_size = nf.file_size
    ∧ out.1.checksum = some nf.checksum := by
  unfold upload_new_version at h
  split_ifs at h
  all_goals
    first
      | exact Option.noConfusion h
      | (have h2 := Option.some.inj h
         subst h2
         exact ⟨rfl, rfl, rfl, rfl⟩)

theorem getLast?_append_singleton {α : Type} (l : List α) (a : α) :
    (l ++ [a]).getLast? = some a := by
  rw [List.getLast?_append_cons]
  rfl

theorem le_maxVersionNumber (versions : List DocumentVersion) :
    ∀ v ∈ versions, v.version_number ≤ maxVersionNumber versions := by
  induction versions with
  | nil => simp
  | cons w ws ih =>
    intro v hv
    rcases List.mem_cons.mp hv with rfl | hv2
    · exact le_max_left _ _
    · exact (ih v hv2).trans (le_max_right _ _)

theorem maxVersionNumber_le_one (versions : List DocumentVersion)
    (h : ∀ v ∈ versions, v.version_number = 1) :
    maxVersionNumber versions ≤ 1 := by
  induction versions with
  | nil => simp [maxVersionNumber]
  | cons w ws ih =>
    have hw := h w (List.mem_cons_self w ws)
    have hws := ih (fun v hv => h v (List.mem_cons_of_mem w hv))
    simpa [maxVersionNumber, hw] using hws

/-- Claim C3: the snapshot row of a successful version upload is numbered
`next_version - 1` where `next_version` is the maximum existing version
number (default 0) plus one, clamped to 1 when the document has no prior
version rows.  The hypothesis that existing rows are numbered at least 1
holds for every row the operation itself creates. -/
theorem snapshot_version_number_formula :
    ∀ (doc : Document) (versions : List DocumentVersion) (userId : Nat)
      (nf : NewFile) (cs : Option String) (doc2 : Document)
      (vs2 : List DocumentVersion),
      (∀ v ∈ versions, 1 ≤ v.version_number) →
      upload_new_version doc versions userId nf cs = some (doc2, vs2) →
      vs2.getLast?.map (fun v => v.version_number)
        = some (if versions = [] then 1 else maxVersionNumber versions + 1 - 1) := by
  intro doc versions userId nf cs doc2 vs2 hge h
  obtain ⟨hvs, -, -, -⟩ := upload_new_version_some doc versions userId nf cs (doc2, vs2) h
  have hvs2 : vs2 = _ := hvs
  rw [hvs2, getLast?_append_singleton]
  cases versions with
  | nil => simp [maxVersionNumber]
  | cons w ws =>
    have h1 : 1 ≤ w.version_number := hge w (List.mem_cons_self w ws)
    have hmax : 1 ≤ maxVersionNumber (w :: ws) :=
      h1.trans (le_maxVersionNumber (w :: ws) w (List.mem_cons_self w ws))
    rw [Option.map_some', Option.some.injEq, if_pos (by omega), if_neg (by simp)]

/-- Witness for claim C3: the first snapshot of `exDoc` (no prior rows) is
numbered 1, and a snapshot over an existing row numbered 1 is numbered
`max + 1 - 1 = 1`. -/
theorem snapshot_version_number_formula_witness :
    (upload_new_version exDoc [] 7 exFile1 none).elim True
      (fun out => out.2.getLast?.map (fun v => v.version_number) = some 1) := by
  cases h : upload_new_version exDoc [] 7 exFile1 none with
  | none => trivial
  | some out =>
    have := snapshot_version_number_formula exDoc [] 7 exFile1 none out.1 out.2
      (by simp) (by rw [h])
    simpa using this

/-- One upload step keeps the version table all-ones: when every existing
row is numbered 1 (or there is none), the snapshot row is numbered 1 as
well, because the stored number is `max + 1 - 1` clamped to 1 and the
maximum never exceeds 1. -/
theorem upload_step_all_one (doc : Document) (versions : List DocumentVersion)
    (userId : Nat) (nf : NewFile) (cs : Option String)
    (out : Document × List DocumentVersion)
    (hones : ∀ v ∈ versions, v.version_number = 1)
    (h : upload_new_version doc versions userId nf cs = some out) :
    (∀ v ∈ out.2, v.version_number = 1) ∧ out.2.length = versions.length + 1 := by
  obtain ⟨hvs, -, -, -⟩ := upload_new_version_some doc versions userId nf cs out h
  have hmax : maxVersionNumber versions ≤ 1 := maxVersionNumber_le_one versions hones
  constructor
  · intro v hv
    rw [hvs] at hv
    rcases List.mem_append.mp hv with hv1 | hv2
    · exact hones v hv1
    · have hv3 : v.version_number
          = if maxVersionNumber versions + 1 > 1 then maxVersionNumber versions + 1 - 1 else 1 := by
        rcases List.mem_singleton.mp hv2 with rfl
        rfl
      rw [hv3]
      split_ifs <;> omega
  · rw [hvs]
    simp

/-- Claim C1, amended (core induction): starting from any all-ones version
table, every successful sequence of uploads leaves an all-ones table,
one row longer per upload. -/
theorem iterate_all_one (nfs : List NewFile) :
    ∀ (doc : Document) (versions : List DocumentVersion) (userId : Nat)
      (out : Document × List DocumentVersion),
      (∀ v ∈ versions, v.version_number = 1) →
      iterateUploads doc versions userId nfs = some out →
      (∀ v ∈ out.2, v.version_number = 1)
      ∧ out.2.length = versions.length + nfs.length := by
  induction nfs with
  | nil =>
    intro doc versions userId out hones h
    cases h
    exact ⟨hones, by simp⟩
  | cons nf nfs ih =>
    intro doc versions userId out hones h
    unfold iterateUploads at h
    cases hstep : upload_new_version doc versions userId nf none with
    | none => rw [hstep] at h; cases h
    | some mid =>
      rw [hstep] at h
      dsimp only at h
      obtain ⟨hones2, hlen2⟩ := upload_step_all_one doc versions userId nf none mid hones hstep
      have hrec := ih mid.1 mid.2 userId out hones2 (by rw [← h])
      exact ⟨hrec.1, by rw [hrec.2, hlen2, List.length_cons]; omega⟩

/-- Claim C1, counterexample: three successful version uploads to a fresh
document produce version numbers `[1, 1, 1]` — the value 2 required by a
contiguous range 1..N−1 (N = 3) never appears, and the sequence is not
strictly increasing (it has duplicates). -/
theorem version_numbers_counterexample :
    (iterateUploads exDoc [] 7 [exFile1, exFile2, exFile3]).map
        (fun out => out.2.map (fun v => v.version_number)) = some [1, 1, 1]
    ∧ (2 : Nat) ∉ [1, 1, 1]
    ∧ ¬ ([1, 1, 1] : List Nat).Nodup := by decide

/-- Claim C1, amended: for every document starting with no version rows
and every successful sequence of N version uploads, all N resulting
`DocumentVersion` rows carry `version_number = 1` — the sequence over
time is constantly 1 (non-decreasing, but neither strictly increasing nor
the contiguous range 1..N−1 once N exceeds 2). -/
theorem version_numbers_constant_one :
    ∀ (doc : Document) (userId : Nat) (nfs : List NewFile)
      (doc2 : Document) (vs2 : List DocumentVersion),
      iterateUploads doc [] userId nfs = some (doc2, vs2) →
      vs2.map (fun v => v.version_number) = List.replicate nfs.length 1
      ∧ vs2.length = nfs.length := by
  intro doc userId nfs doc2 vs2 h
  obtain ⟨hones, hlen⟩ := iterate_all_one nfs doc [] userId (doc2, vs2) (by simp) h
  have hlen2 : vs2.length = nfs.length := by simpa using hlen
  refine ⟨List.eq_replicate_iff.mpr ⟨by simpa using hlen2, ?_⟩, hlen2⟩
  intro b hb
  obtain ⟨v, hv, rfl⟩ := List.mem_map.mp hb
  exact hones v hv

/-- Witness for the amended claim C1: two uploads to `exDoc` leave version
numbers `[1, 1]`. -/
theorem version_numbers_constant_one_witness :
    (iterateUploads exDoc [] 7 [exFile1, exFile2]).map
        (fun out => out.2.map (fun v => v.version_number)) = some [1, 1] := by
  cases h : iterateUploads exDoc [] 7 [exFile1, exFile2] with
  | none =>
    have hs : (iterateUploads exDoc [] 7 [exFile1, exFile2]).isSome = true := by decide
    rw [h] at hs
    cases hs
  | some out =>
    obtain ⟨h1, h2⟩ := version_numbers_constant_one exDoc 7 [exFile1, exFile2]
      out.1 out.2 (by rw [h])
    simp only [Option.map_some', Option.some.injEq]
    rw [h1]
    rfl

/-- Claim C2: the snapshot row of a successful version upload carries the
document's pre-update file_path, file_size and checksum, and the
document's own file fields end up holding the new file's values — so
right after the operation the prior path/size/checksum are readable from
the newest (last-created) `DocumentVersion` row.  The hypothesis that the
document carries a checksum holds for every document the upload endpoint
creates. -/
theorem version_snapshot_preserves_prior_file :
    ∀ (doc : Document) (versions : List DocumentVersion) (userId : Nat)
      (nf : NewFile) (cs : Option String) (c : String) (doc2 : Document)
      (vs2 : List DocumentVersion),
      doc.checksum = some c →
      upload_new_version doc versions userId nf cs = some (doc2, vs2) →
      vs2.getLast?.map (fun v => v.file_path) = some doc.file_path
      ∧ vs2.getLast?.map (fun v => v.file_size) = some doc.file_size
      ∧ vs2.getLast?.map (fun v => v.checksum) = some c
      ∧ doc2.file_path = nf.file_path
      ∧ doc2.file_size = nf.file_size
      ∧ doc2.checksum = some nf.checksum := by
  intro doc versions userId nf cs c doc2 vs2 hck h
  obtain ⟨hvs, hp, hs, hc⟩ := upload_new_version_some doc versions userId nf cs (doc2, vs2) h
  have hvs2 : vs2 = _ := hvs
  rw [hvs2, getLast?_append_singleton]
  exact ⟨rfl, rfl, by simp [hck], hp, hs, hc⟩

/-- Witness for claim C2: uploading `exFile1` over `exDoc` snapshots
`exDoc`'s path, size and checksum `"c0"` into the newest version row and
installs `exFile1`'s fields on the document. -/
theorem version_snapshot_preserves_prior_file_witness :
    (upload_new_version exDoc [] 7 exFile1 none).elim True
      (fun out => out.2.getLast?.map (fun v => v.checksum) = some "c0"
        ∧ out.1.checksum = some "c1") := by
  cases h : upload_new_version exDoc [] 7 exFile1 none with
  | none => trivial
  | some out =>
    obtain ⟨-, -, h3, -, -, h6⟩ := version_snapshot_preserves_prior_file exDoc [] 7
      exFile1 none "c0" out.1 out.2 (by rfl) (by rw [h])
    exact ⟨h3, h6⟩

/-- Invariant of the chunk loop: when the hash has absorbed exactly the
bytes written so far and the size counter matches, a successful exit
reports the digest of the written bytes and their count. -/
theorem saveLoop_ok_invariant (digest : List Nat → String) (maxSize : Nat)
    (chunks : List (List Nat)) :
    ∀ (acc : List Nat) (size0 : Nat) (w : List Nat) (s : Nat) (c : String),
      size0 = acc.length →
      saveLoop digest maxSize chunks acc acc size0 = SaveResult.ok w s c →
      c = digest w ∧ s = w.length := by
  induction chunks with
  | nil =>
    intro acc size0 w s c hsz h
    cases h
    exact ⟨rfl, hsz⟩
  | cons chunk rest ih =>
    intro acc size0 w s c hsz h
    unfold saveLoop at h
    by_cases hemp : chunk = []
    · rw [if_pos hemp] at h
      cases h
      exact ⟨rfl, hsz⟩
    · rw [if_neg hemp] at h
      dsimp only at h
      by_cases hbig : maxSize < size0 + chunk.length
      · rw [if_pos hbig] at h; cases h
      · rw [if_neg hbig] at h
        exact ih (acc ++ chunk) (size0 + chunk.length) w s c (by simp [hsz]) h

/-- Claim C7: for every upload that passes validation (extension in the
allow-list) and saves successfully, the checksum returned with the saved
file — the value the endpoints store on the Document — is the digest of
exactly the byte sequence written to disk (the SHA-256 hex digest enters
as the abstract `digest` of the absorbed bytes). -/
theorem stored_checksum_is_digest_of_written :
    ∀ (digest : List Nat → String) (maxSize : Nat) (filename : String)
      (chunks : List (List Nat)) (w : List Nat) (s : Nat) (c : String),
      validate_file filename = true →
      save_upload_file digest maxSize chunks = SaveResult.ok w s c →
      c = digest w
      ∧ diskAfter (save_upload_file digest maxSize chunks) = some w := by
  intro digest maxSize filename chunks w s c hval h
  obtain ⟨h1, -⟩ := saveLoop_ok_invariant digest maxSize chunks [] 0 w s c rfl h
  exact ⟨h1, by rw [save_upload_file] at *; rw [h]; rfl⟩

/-- Witness for claim C7: a two-chunk upload of `notes.txt` under the
limit stores the digest of the concatenated written bytes. -/
theorem stored_checksum_is_digest_of_written_witness :
    "d:3" = (fun bs : List Nat => "d:" ++ toString bs.length) [1, 2, 3]
    ∧ diskAfter (save_upload_file (fun bs : List Nat => "d:" ++ toString bs.length)
        100 [[1, 2], [3]]) = some [1, 2, 3] :=
  stored_checksum_is_digest_of_written (fun bs => "d:" ++ toString bs.length)
    100 "notes.txt" [[1, 2], [3]] [1, 2, 3] 3 "d:3" (by decide) (by decide)

/-- The abort condition of the chunk loop: starting under the limit and
fed non-empty chunks, the loop ends in the 413 abort exactly when the
total byte count passes the limit. -/
theorem saveLoop_tooLarge_iff (digest : List Nat → String) (maxSize : Nat)
    (chunks : List (List Nat)) :
    ∀ (hashed written : List Nat) (size0 : Nat),
      size0 ≤ maxSize →
      (∀ ch ∈ chunks, ch ≠ []) →
      (saveLoop digest maxSize chunks hashed written size0 = SaveResult.tooLarge
        ↔ maxSize < size0 + chunks.flatten.length) := by
  induction chunks with
  | nil =>
    intro hashed written size0 hle _
    simp only [saveLoop, List.flatten_nil, List.length_nil]
    constructor
    · intro h; cases h
    · omega
  | cons chunk rest ih =>
    intro hashed written size0 hle hne
    have hemp : chunk ≠ [] := hne chunk (List.mem_cons_self chunk rest)
    unfold saveLoop
    rw [if_neg hemp]
    dsimp only
    by_cases hbig : maxSize < size0 + chunk.length
    · rw [if_pos hbig]
      simp only [List.flatten_cons, List.length_append]
      constructor
      · intro _; omega
      · intro _; trivial
    · rw [if_neg hbig]
      have := ih (hashed ++ chunk) (written ++ chunk) (size0 + chunk.length)
        (by omega) (fun ch hch => hne ch (List.mem_cons_of_mem chunk hch))
      rw [this]
      simp only [List.flatten_cons, List.length_append]
      omega

/-- Claim C8: a streamed upload whose total byte count exceeds
`MAX_UPLOAD_SIZE` ends in the entity-too-large abort with the partial
file removed from disk, and an upload whose total does not exceed the
limit is never rejected with that error.  The chunks of a real
`read(8192)` stream are non-empty, which is the stated hypothesis. -/
theorem oversize_upload_rejected :
    ∀ (digest : List Nat → String) (maxSize : Nat) (chunks : List (List Nat)),
      (∀ ch ∈ chunks, ch ≠ []) →
      (save_upload_file digest maxSize chunks = SaveResult.tooLarge
        ↔ maxSize < chunks.flatten.length)
      ∧ (save_upload_file digest maxSize chunks = SaveResult.tooLarge →
          diskAfter (save_upload_file digest maxSize chunks) = none) := by
  intro digest maxSize chunks hne
  constructor
  · have := saveLoop_tooLarge_iff digest maxSize chunks [] [] 0 (Nat.zero_le _) hne
    simpa [save_upload_file] using this
  · intro h
    rw [save_upload_file] at *
    rw [h]
    rfl

/-- Witness for claim C8: a 3-byte upload against a 2-byte limit is
rejected as too large and leaves no file, while the same upload against
a 10-byte limit is not rejected. -/
theorem oversize_upload_rejected_witness :
    save_upload_file (fun _ => "h") 2 [[1, 2, 3]] = SaveResult.tooLarge
    ∧ diskAfter (save_upload_file (fun _ => "h") 2 [[1, 2, 3]]) = none
    ∧ save_upload_file (fun _ => "h") 10 [[1, 2, 3]] ≠ SaveResult.tooLarge := by
  have h2 := oversize_upload_rejected (fun _ => "h") 2 [[1, 2, 3]] (by decide)
  have h10 := oversize_upload_rejected (fun _ => "h") 10 [[1, 2, 3]] (by decide)
  have habort := h2.1.mpr (by decide)
  refine ⟨habort, h2.2 habort, ?_⟩
  intro hc
  exact absurd (h10.1.mp hc) (by decide)

/-- Claim C9: text extraction is total and deterministic on byte content —
its `encoding` field is always the attempted encoding `utf-8` or the
fallback `latin-1` (both inside the claim's allowed set, which also
admits `binary`); on bytes that are not valid UTF-8 it falls back to
latin-1 and still produces all three counts rather than failing; equal
byte content gives identical results — and PDF extraction degrades to
the default metadata set (unknown page count, not encrypted, assumed
searchable) on any internal failure of the PDF library. -/
theorem extractors_never_fail :
    (∀ bs : List Nat, (extract_text_metadata bs).encoding = "utf-8"
      ∨ (extract_text_metadata bs).encoding = "latin-1")
    ∧ (∀ bs : List Nat, utf8Decode bs = none →
        (extract_text_metadata bs).encoding = "latin-1"
        ∧ (extract_text_metadata bs).line_count.isSome = true
        ∧ (extract_text_metadata bs).word_count.isSome = true
        ∧ (extract_text_metadata bs).character_count.isSome = true)
    ∧ (∀ bs bs2 : List Nat, bs = bs2 →
        extract_text_metadata bs = extract_text_metadata bs2)
    ∧ extract_pdf_metadata none
        = { page_count := none, is_encrypted := false, is_searchable := true,
            pdf_version := none, text_preview := none } := by
  refine ⟨?_, ?_, ?_, rfl⟩
  · intro bs
    unfold extract_text_metadata
    cases utf8Decode bs with
    | none => exact Or.inr rfl
    | some cps => exact Or.inl rfl
  · intro bs hdec
    unfold extract_text_metadata
    rw [hdec]
    exact ⟨rfl, rfl, rfl, rfl⟩
  · intro bs bs2 h
    rw [h]

/-- Witness for claim C9: the single byte 255 is not valid UTF-8; its
extraction falls back to latin-1 with all counts present. -/
theorem extractors_never_fail_witness :
    (extract_text_metadata [255]).encoding = "latin-1"
    ∧ (extract_text_metadata [255]).line_count.isSome = true :=
  ⟨(extractors_never_fail.2.1 [255] (by decide)).1,
   (extractors_never_fail.2.1 [255] (by decide)).2.1⟩

theorem mem_insertByCreatedDesc (d e : Document) :
    ∀ l, e ∈ insertByCreatedDesc d l ↔ e = d ∨ e ∈ l := by
  intro l
  induction l with
  | nil => simp [insertByCreatedDesc]
  | cons x xs ih =>
    unfold insertByCreatedDesc
    split_ifs
    · simp
    · rw [List.mem_cons, ih, List.mem_cons]
      tauto

theorem mem_sortByCreatedDesc (e : Document) :
    ∀ l, e ∈ sortByCreatedDesc l ↔ e ∈ l := by
  intro l
  induction l with
  | nil => simp [sortByCreatedDesc]
  | cons x xs ih =>
    unfold sortByCreatedDesc
    rw [mem_insertByCreatedDesc, ih, List.mem_cons]

theorem mem_filteredDocs (docs : List Document) (userId : Nat)
    (sf : Option DocumentStatus) (tf : Option DocumentType) (d : Document)
    (h : d ∈ filteredDocs docs userId sf tf) :
    d.owner_id = userId
    ∧ (∀ s, sf = some s → d.status = s)
    ∧ (∀ t, tf = some t → d.document_type = t) := by
  unfold filteredDocs at h
  cases sf with
  | none =>
    cases tf with
    | none =>
      simp only [List.mem_filter, decide_eq_true_eq] at h
      exact ⟨h.2, by simp, by simp⟩
    | some t =>
      simp only [List.mem_filter, decide_eq_true_eq] at h
      exact ⟨h.1.2, by simp, fun t2 ht2 => by cases ht2; exact h.2⟩
  | some s =>
    cases tf with
    | none =>
      simp only [List.mem_filter, decide_eq_true_eq] at h
      exact ⟨h.1.2, fun s2 hs2 => by cases hs2; exact h.2, by simp⟩
    | some t =>
      simp only [List.mem_filter, decide_eq_true_eq] at h
      exact ⟨h.1.1.2, fun s2 hs2 => by cases hs2; exact h.1.2,
        fun t2 ht2 => by cases ht2; exact h.2⟩

/-- Claim C10: the documents a list request returns are exactly drawn from
the requester's documents with the status/type filters applied, while the
returned `total` counts all of the requester's documents with the filters
ignored; consequently, whenever a filter excludes some owned document,
`total` strictly exceeds the number of documents matching the query. -/
theorem list_total_ignores_filters :
    ∀ (docs : List Document) (userId page page_size : Nat)
      (sf : Option DocumentStatus) (tf : Option DocumentType),
      (∀ d ∈ (list_documents docs userId page page_size sf tf).documents,
          d.owner_id = userId
          ∧ (∀ s, sf = some s → d.status = s)
          ∧ (∀ t, tf = some t → d.document_type = t))
      ∧ (list_documents docs userId page page_size sf tf).total
          = (docs.filter (fun d => d.owner_id = userId)).length
      ∧ ((filteredDocs docs userId sf tf).length
            < (docs.filter (fun d => d.owner_id = userId)).length →
          (filteredDocs docs userId sf tf).length
            < (list_documents docs userId page page_size sf tf).total) := by
  intro docs userId page page_size sf tf
  refine ⟨?_, rfl, fun h => h⟩
  intro d hd
  have hmem : d ∈ sortByCreatedDesc (filteredDocs docs userId sf tf) := by
    have h1 : d ∈ (sortByCreatedDesc (filteredDocs docs userId sf tf)).drop
        ((page - 1) * page_size) := (List.take_subset _ _) hd
    exact (List.drop_subset _ _) h1
  exact mem_filteredDocs docs userId sf tf d
    ((mem_sortByCreatedDesc d (filteredDocs docs userId sf tf)).mp hmem)

/-- Witness for claim C10: user 3 owns a draft and a published document;
filtering by draft matches one document while the response's total stays
2, exceeding the match count. -/
theorem list_total_ignores_filters_witness :
    (filteredDocs [exDocA, exDocB] 3 (some DocumentStatus.draft) none).length
      < (list_documents [exDocA, exDocB] 3 1 20 (some DocumentStatus.draft) none).total :=
  (list_total_ignores_filters [exDocA, exDocB] 3 1 20
    (some DocumentStatus.draft) none).2.2 (by decide)

end PyDocs
